import Mathlib

/-
Verification development for the ATSim AVR-core simulator.

The C sources are shallowly embedded: machine integers become Nat with
explicit truncation (x % 2^w) at the points where the C types truncate,
the Machine struct becomes a Lean structure with function-valued arrays,
and every mutating C function becomes a Lean function returning the new
machine state.  The region-boundary constants used by
src/machine_accessors.h (GP_REGISTERS_END_ADDRESS and friends) are not
defined in the provided headers; their values are pinned by the
self-contained duplicates of the same accessors in src/machine.h
(lines 135-177) and by the memory map of the design document.
-/

set_option maxRecDepth 8000

namespace ATSim

/-- config.h line 14: number of general purpose registers. -/
def GP_REGISTERS : Nat := 32

/-- config.h line 15: number of input/output registers. -/
def IO_REGISTERS : Nat := 64

/-- config.h line 7: flash size in bytes. -/
def FLASH_SIZE : Nat := 8 * 1024

/-- config.h line 8. -/
def PROG_MEM_SIZE_BYTES : Nat := FLASH_SIZE

/-- config.h line 9: program memory size in 16-bit words (4096). -/
def PROG_MEM_SIZE : Nat := PROG_MEM_SIZE_BYTES / 2

/-- config.h line 13. -/
def SRAM_SIZE : Nat := 512

/-- config.h line 18. -/
def EEPROM_SIZE : Nat := 512

/-- config.h line 16: DATA_MEM_SIZE = 512 + 64 + 32 = 608. -/
def DATA_MEM_SIZE : Nat := SRAM_SIZE + IO_REGISTERS + GP_REGISTERS

/-- config.h line 11: PC_MASK = PROG_MEM_SIZE - 1 = 4095. -/
def PC_MASK : Nat := PROG_MEM_SIZE - 1

/-- machine.h lines 39-58: the elif chain picks the smallest mask of the
form 2^k - 1 with DATA_MEM_SIZE < 2^k + 1; for DATA_MEM_SIZE = 608 this
is (1 <<< 10) - 1 = 1023. -/
def SP_MASK : Nat := (1 <<< 10) - 1

/-- Region bound used at machine_accessors.h line 60; value pinned by
machine.h line 138 (GP_REGISTERS). -/
def GP_REGISTERS_END_ADDRESS : Nat := GP_REGISTERS

/-- Region bound used at machine_accessors.h line 51; value pinned by
machine.h line 148 (index b - GP_REGISTERS). -/
def IO_REGISTERS_START_ADDRESS : Nat := GP_REGISTERS

/-- Region bound used at machine_accessors.h line 67; value pinned by
machine.h line 142 (GP_REGISTERS + IO_REGISTERS). -/
def IO_REGISTERS_END_ADDRESS : Nat := GP_REGISTERS + IO_REGISTERS

/-- Region bound used at machine_accessors.h line 49; value pinned by
machine.h line 152 (index b - GP_REGISTERS - IO_REGISTERS). -/
def SRAM_START_ADDRESS : Nat := GP_REGISTERS + IO_REGISTERS

/-- Region bound used at machine_accessors.h line 93; value pinned by
machine.h line 150 (GP_REGISTERS + IO_REGISTERS + SRAM_SIZE). -/
def SRAM_END_ADDRESS : Nat := GP_REGISTERS + IO_REGISTERS + SRAM_SIZE

/-- machine.h lines 82-92: the Machine struct.  The C field IO is named
IOreg here.  Array cells are Nat-valued functions; every store below
truncates exactly where the C types (uint8_t / uint16_t cells) do. -/
structure Machine where
  SREG : Fin 8 → Bool
  PC : Nat
  R : Fin GP_REGISTERS → Nat
  IOreg : Fin IO_REGISTERS → Nat
  FLASH : Fin PROG_MEM_SIZE → Nat
  EEPROM : Fin EEPROM_SIZE → Nat
  SRAM : Fin SRAM_SIZE → Nat
  SKIP : Bool

/-- machine.h line 72: SREG_C = 0. -/
def SREG_C : Fin 8 := ⟨0, by decide⟩
/-- machine.h line 73: SREG_Z = 1. -/
def SREG_Z : Fin 8 := ⟨1, by decide⟩
/-- machine.h line 74: SREG_N = 2. -/
def SREG_N : Fin 8 := ⟨2, by decide⟩
/-- machine.h line 75: SREG_V = 3. -/
def SREG_V : Fin 8 := ⟨3, by decide⟩
/-- machine.h line 76: SREG_S = 4. -/
def SREG_S : Fin 8 := ⟨4, by decide⟩
/-- machine.h line 77: SREG_H = 5. -/
def SREG_H : Fin 8 := ⟨5, by decide⟩
/-- machine.h line 78: SREG_T = 6. -/
def SREG_T : Fin 8 := ⟨6, by decide⟩
/-- machine.h line 79: SREG_I = 7. -/
def SREG_I : Fin 8 := ⟨7, by decide⟩

/-- machine_accessors.h lines 23-35 (PackSREG), on the flag array: the
or-chain of the eight flag bits.  PackSREG below applies it to m.SREG. -/
def packBits (f : Fin 8 → Bool) : Nat :=
  0 ||| (if f SREG_I then 128 else 0)
    ||| (if f SREG_T then 64 else 0)
    ||| (if f SREG_H then 32 else 0)
    ||| (if f SREG_S then 16 else 0)
    ||| (if f SREG_V then 8 else 0)
    ||| (if f SREG_N then 4 else 0)
    ||| (if f SREG_Z then 2 else 0)
    ||| (if f SREG_C then 1 else 0)

/-- machine_accessors.h lines 23-35: PackSREG. -/
def PackSREG (m : Machine) : Nat := packBits m.SREG

/-- machine_accessors.h lines 37-47 (UnpackSREG), on the flag array:
each flag index receives the corresponding bit of the byte.  The eight
separate assignments of the C code are written as one function on the
(distinct) indices. -/
def unpackBits (b : Nat) : Fin 8 → Bool := fun i =>
  if i = SREG_I then (b &&& 128) != 0
  else if i = SREG_T then (b &&& 64) != 0
  else if i = SREG_H then (b &&& 32) != 0
  else if i = SREG_S then (b &&& 16) != 0
  else if i = SREG_V then (b &&& 8) != 0
  else if i = SREG_N then (b &&& 4) != 0
  else if i = SREG_Z then (b &&& 2) != 0
  else (b &&& 1) != 0

/-- machine_accessors.h lines 37-47: UnpackSREG.  The Mem8 parameter is
truncated at the call boundary (uint8_t conversion). -/
def UnpackSREG (m : Machine) (b : Nat) : Machine :=
  { m with SREG := unpackBits (b % 256) }

/-- peripherals/usi.c lines 53-57: USI_PostGetDataMem has an empty body
(both parameters UNUSED), so it returns the state unchanged. -/
def USI_PostGetDataMem (m : Machine) (address : Nat) : Machine :=
  let _ := address
  m

/-- peripherals.h lines 33-43: PreGetDataMem.  With PERIPHERAL_USI
enabled it dispatches to USI_PostGetDataMem under the guard
address <= 0x10 or address >= 0x0D; the callee is a no-op. -/
def PreGetDataMem (m : Machine) (address : Nat) : Machine :=
  if address ≤ 0x10 ∨ address ≥ 0x0D then USI_PostGetDataMem m address else m

/-- peripherals.h lines 45-55: PostGetDataMem (same body as the pre hook). -/
def PostGetDataMem (m : Machine) (address : Nat) : Machine :=
  if address ≤ 0x10 ∨ address ≥ 0x0D then USI_PostGetDataMem m address else m

/-- peripherals.h lines 9-19: PreSetDataMem (also calls the no-op
USI_PostGetDataMem in the source). -/
def PreSetDataMem (m : Machine) (address : Nat) : Machine :=
  if address ≤ 0x10 ∨ address ≥ 0x0D then USI_PostGetDataMem m address else m

/-- peripherals.h lines 21-31: PostSetDataMem. -/
def PostSetDataMem (m : Machine) (address : Nat) : Machine :=
  if address ≤ 0x10 ∨ address ≥ 0x0D then USI_PostGetDataMem m address else m

/-- machine_accessors.h lines 54-105: GetDataMem.  Returns the byte read
together with the machine state threaded through the peripheral hooks
(the C function mutates m only through those hooks).  The Address16
argument is truncated to 16 bits at the call boundary.  The EXT_IO
branch is compiled out (HAS_EXT_IO_REGISTERS is not defined for this
configuration; the machine.h struct has no EXT_IO field). -/
def GetDataMemDecoded (m : Machine) (b : Nat) : Nat × Machine :=
  if b < GP_REGISTERS_END_ADDRESS then
    (m.R ⟨b % GP_REGISTERS, Nat.mod_lt b (by decide)⟩, m)
  else if b < IO_REGISTERS_END_ADDRESS then
    if b = 0x3F then
      (PackSREG m, m)
    else
      let m1 := PreGetDataMem m b
      let r := m1.IOreg ⟨(b - IO_REGISTERS_START_ADDRESS) % IO_REGISTERS,
                         Nat.mod_lt _ (by decide)⟩
      let m2 := PostGetDataMem m1 b
      (r, m2)
  else if b < SRAM_END_ADDRESS then
    (m.SRAM ⟨(b - SRAM_START_ADDRESS) % SRAM_SIZE, Nat.mod_lt _ (by decide)⟩, m)
  else
    (0, m)

/-- machine_accessors.h lines 54-105: GetDataMem first decodes the
address (truncation to 16 bits at the Address16 call boundary, then
line 56 reduces mod DATA_MEM_SIZE) and dispatches on the decoded b. -/
def GetDataMem (m : Machine) (a : Nat) : Nat × Machine :=
  GetDataMemDecoded m ((a % 65536) % DATA_MEM_SIZE)

/-- machine_accessors.h lines 107-157: the body of SetDataMem after
line 109 computes b.  The Mem8 value is truncated at the call boundary;
note that in the IO branch the write to the IO array happens even when
b = 0x3F (the UnpackSREG dispatch is not an early return in the
source). -/
def SetDataMemDecoded (m : Machine) (b v : Nat) : Machine :=
  let v := v % 256
  if b < GP_REGISTERS_END_ADDRESS then
    { m with R := fun j =>
        if j = (⟨b % GP_REGISTERS, Nat.mod_lt b (by decide)⟩ : Fin GP_REGISTERS)
        then v else m.R j }
  else if b < IO_REGISTERS_END_ADDRESS then
    let m1 := if b = 0x3F then UnpackSREG m v else m
    let m2 := PreSetDataMem m1 b
    let m3 := { m2 with IOreg := fun j =>
        if j = (⟨(b - IO_REGISTERS_START_ADDRESS) % IO_REGISTERS,
                 Nat.mod_lt _ (by decide)⟩ : Fin IO_REGISTERS)
        then v else m2.IOreg j }
    PostSetDataMem m3 b
  else if b < SRAM_END_ADDRESS then
    { m with SRAM := fun j =>
        if j = (⟨(b - SRAM_START_ADDRESS) % SRAM_SIZE,
                 Nat.mod_lt _ (by decide)⟩ : Fin SRAM_SIZE)
        then v else m.SRAM j }
  else
    m

/-- machine_accessors.h lines 107-157: SetDataMem decodes the address
and dispatches on the decoded b. -/
def SetDataMem (m : Machine) (a v : Nat) : Machine :=
  SetDataMemDecoded m ((a % 65536) % DATA_MEM_SIZE) v

/-- machine.h line 60: Get16 combines a high and a low byte into a
uint16_t. -/
def Get16 (h l : Nat) : Nat := ((h <<< 8) ||| l) % 65536

/-- machine.h line 197: GetSP reads SPH = IO[0x3E], SPL = IO[0x3D] and
masks with SP_MASK. -/
def GetSP (m : Machine) : Nat :=
  Get16 (m.IOreg ⟨0x3E, by decide⟩) (m.IOreg ⟨0x3D, by decide⟩) &&& SP_MASK

/-- machine.h lines 61-66 and 196: SetSP masks the argument with SP_MASK
(the argument is an int in C; truncation to 16 bits at the boundary
composed with the mask agrees with the int bitand because SP_MASK + 1
divides 2^16) and stores the two bytes into SPH and SPL. -/
def SetSP (m : Machine) (a : Nat) : Machine :=
  let v := (a % 65536) &&& SP_MASK
  { m with IOreg := fun j =>
      if j = (⟨0x3E, by decide⟩ : Fin IO_REGISTERS) then (v >>> 8) &&& 0xff
      else if j = (⟨0x3D, by decide⟩ : Fin IO_REGISTERS) then v &&& 0xff
      else m.IOreg j }

/-- Two's-complement subtraction on 16-bit values, for k ≤ 65536: the
value of the C expression (uint16_t)(x - k). -/
def sub16 (x k : Nat) : Nat := (x + (65536 - k)) % 65536

/-- machine_accessors.h lines 174-186: PushStack16 (the debug collision
branch is compiled out).  Note the source re-reads GetSP after each
store. -/
def PushStack16 (m : Machine) (val : Nat) : Machine :=
  let val := val % 65536
  let m1 := SetDataMem m (GetSP m) (val &&& 0xff)
  let m2 := SetDataMem m1 (sub16 (GetSP m1) 1) ((val >>> 8) &&& 0xff)
  SetSP m2 (sub16 (GetSP m2) 2)

/-- machine_accessors.h lines 194-198: PushStack8. -/
def PushStack8 (m : Machine) (val : Nat) : Machine :=
  let m1 := SetDataMem m (GetSP m) val
  SetSP m1 (sub16 (GetSP m1) 1)

/-- machine_accessors.h lines 200-204: PopStack8 increments SP, then
reads the byte at the new SP; returns the byte and the new state. -/
def PopStack8 (m : Machine) : Nat × Machine :=
  let m1 := SetSP m (GetSP m + 1)
  GetDataMem m1 (GetSP m1)

/-- The FLASH word at word index w mod PROG_MEM_SIZE (the array access
FLASH[w % PROG_MEM_SIZE] shared by the program-memory accessors). -/
def flashWord (m : Machine) (w : Nat) : Nat :=
  m.FLASH ⟨w % PROG_MEM_SIZE, Nat.mod_lt _ (by decide)⟩

/-- machine_accessors.h lines 8-11: GetProgMemByte maps byte address a to
the low or high half of FLASH[a >> 1]; the Address16 argument is
truncated at the call boundary. -/
def GetProgMemByte (m : Machine) (a : Nat) : Nat :=
  (flashWord m ((a % 65536) >>> 1) >>> (8 * ((a % 65536) &&& 0x1))) &&& 0xff

/-- machine_accessors.h lines 13-16: GetProgMem. -/
def GetProgMem (m : Machine) (a : Nat) : Nat :=
  flashWord m (a % 65536)

/-- machine_accessors.h lines 18-21: SetProgMem stores a 16-bit word. -/
def SetProgMem (m : Machine) (a v : Nat) : Machine :=
  { m with FLASH := fun j =>
      if j = (⟨(a % 65536) % PROG_MEM_SIZE, Nat.mod_lt _ (by decide)⟩ :
              Fin PROG_MEM_SIZE)
      then v % 65536 else m.FLASH j }

/-- machine.c lines 68-74: load_memory writes word_index going upward for
word_index < max / 2, each word combining bytes[2i] (low) and
bytes[2i+1] (high) via Get16. -/
def load_memory (m : Machine) (bytes : List Nat) : Machine :=
  (List.range (bytes.length / 2)).foldl
    (fun mm word_index =>
      SetProgMem mm word_index
        (Get16 (bytes.getD (word_index * 2 + 1) 0) (bytes.getD (word_index * 2) 0)))
    m

/-- machine.c lines 18-26: the while loop of run_until_halt_loop, with
explicit fuel (the C loop can diverge; none models running out of fuel).
The cycle function is a parameter because decode_and_execute_instruction
(called by machine_cycle, machine.c lines 10-16) is declared in
instructions.h but its translation unit is not part of the provided
sources; every theorem below holds for an arbitrary cycle function and
hence for machine_cycle. -/
def run_until_halt_loopAux (step : Machine → Machine) :
    Nat → Nat → Machine → Option Machine
  | 0, _, _ => none
  | fuel + 1, last_pc, m =>
    if last_pc = m.PC then some m
    else run_until_halt_loopAux step fuel m.PC (step m)

/-- machine.c lines 18-26: run_until_halt_loop starts with
last_pc = 0xffff. -/
def run_until_halt_loop (step : Machine → Machine) (fuel : Nat)
    (m : Machine) : Option Machine :=
  run_until_halt_loopAux step fuel 0xffff m

/-- machine.h line 229: IsNegative tests bit (bit_count - 1). -/
def IsNegative (val bit_count : Nat) : Bool :=
  (val &&& (1 <<< (bit_count - 1))) != 0

/-- machine.h line 230: the ToSigned macro.  In C the negative branch
computes (~val + 1) in (32-bit) int arithmetic, which for
0 < val < 2^32 equals 2^32 - val (and for val = 0 both sides of the
bitand with the mask give 0), then masks with (1 << (bit_count-1)) - 1
and negates. -/
def ToSigned (val bit_count : Nat) : Int :=
  if IsNegative val bit_count then
    -(((2 ^ 32 - val) &&& ((1 <<< (bit_count - 1)) - 1) : Nat) : Int)
  else
    (val : Int)

/-- An all-zero machine used as a concrete test state. -/
def m0 : Machine :=
  { SREG := fun _ => false, PC := 0, R := fun _ => 0, IOreg := fun _ => 0,
    FLASH := fun _ => 0, EEPROM := fun _ => 0, SRAM := fun _ => 0,
    SKIP := false }

/-- A machine whose stack pointer (SPL = 93, SPH = 0) points at the SPL
cell of the data space, and with R[0] = 7. -/
def m93 : Machine :=
  { m0 with
    R := fun j => if j = (⟨0, by decide⟩ : Fin GP_REGISTERS) then 7 else 0,
    IOreg := fun j => if j = (⟨0x3D, by decide⟩ : Fin IO_REGISTERS) then 93 else 0 }

/-- A machine whose stack pointer (SPL = 94, SPH = 0) points at the SPH
cell of the data space. -/
def m94 : Machine :=
  { m0 with
    IOreg := fun j => if j = (⟨0x3D, by decide⟩ : Fin IO_REGISTERS) then 94 else 0 }

/-- A machine whose FLASH word 1 holds the (arbitrary) residual value
0xBEEF, standing for the indeterminate contents of the stack-allocated
Machine in main (atsim.c line 16), which is never zero-initialized. -/
def m0beef : Machine :=
  { m0 with
    FLASH := fun j => if j = (⟨1, by decide⟩ : Fin PROG_MEM_SIZE) then 0xBEEF else 0 }

/- ------------------------------------------------------------------ -/
/- Helper lemmas.                                                      -/
/- ------------------------------------------------------------------ -/

theorem DATA_MEM_SIZE_eq : DATA_MEM_SIZE = 608 := rfl

theorem PROG_MEM_SIZE_eq : PROG_MEM_SIZE = 4096 := rfl

theorem SP_MASK_eq : SP_MASK = 1023 := rfl

theorem GP_REGISTERS_END_ADDRESS_eq : GP_REGISTERS_END_ADDRESS = 32 := rfl

theorem IO_REGISTERS_END_ADDRESS_eq : IO_REGISTERS_END_ADDRESS = 96 := rfl

theorem SRAM_END_ADDRESS_eq : SRAM_END_ADDRESS = 608 := rfl

theorem IO_REGISTERS_START_ADDRESS_eq : IO_REGISTERS_START_ADDRESS = 32 := rfl

theorem IO_REGISTERS_eq : IO_REGISTERS = 64 := rfl

theorem SRAM_START_ADDRESS_eq : SRAM_START_ADDRESS = 96 := rfl

theorem SRAM_SIZE_eq : SRAM_SIZE = 512 := rfl

theorem GP_REGISTERS_eq : GP_REGISTERS = 32 := rfl

theorem USI_PostGetDataMem_eq (m : Machine) (a : Nat) :
    USI_PostGetDataMem m a = m := rfl

theorem PreGetDataMem_eq (m : Machine) (a : Nat) : PreGetDataMem m a = m := by
  unfold PreGetDataMem USI_PostGetDataMem
  split <;> rfl

theorem PostGetDataMem_eq (m : Machine) (a : Nat) : PostGetDataMem m a = m := by
  unfold PostGetDataMem USI_PostGetDataMem
  split <;> rfl

theorem PreSetDataMem_eq (m : Machine) (a : Nat) : PreSetDataMem m a = m := by
  unfold PreSetDataMem USI_PostGetDataMem
  split <;> rfl

theorem PostSetDataMem_eq (m : Machine) (a : Nat) : PostSetDataMem m a = m := by
  unfold PostSetDataMem USI_PostGetDataMem
  split <;> rfl

theorem packBits_testBit : ∀ (f : Fin 8 → Bool) (k : Fin 8),
    (packBits f).testBit k.val = f k := by decide

theorem packBits_lt : ∀ (f : Fin 8 → Bool), packBits f < 256 := by decide

theorem packBits_unpackBits : ∀ b < 256, packBits (unpackBits b) = b := by decide

theorem unpackBits_packBits : ∀ (f : Fin 8 → Bool) (i : Fin 8),
    unpackBits (packBits f) i = f i := by decide

theorem land_SP_MASK (x : Nat) : x &&& SP_MASK = x % 1024 := by
  have h : x &&& 2 ^ 10 - 1 = x % 2 ^ 10 := Nat.and_pow_two_sub_one_eq_mod x 10
  simpa using h

theorem GetSP_lt (m : Machine) : GetSP m < 1024 := by
  unfold GetSP
  rw [land_SP_MASK]
  exact Nat.mod_lt _ (by decide)

theorem sixteen_bits_roundtrip : ∀ v < 1024,
    Get16 ((v >>> 8) &&& 0xff) (v &&& 0xff) &&& SP_MASK = v := by decide

theorem GetSP_SetSP (m : Machine) (x : Nat) :
    GetSP (SetSP m x) = (x % 65536) &&& SP_MASK := by
  have hv : (x % 65536) &&& SP_MASK < 1024 := by
    rw [land_SP_MASK]; exact Nat.mod_lt _ (by decide)
  simp only [GetSP, SetSP]
  norm_num
  exact sixteen_bits_roundtrip _ hv

/-- SetDataMem leaves the two stack-pointer cells alone when the decoded
data address is neither 0x5D (SPL) nor 0x5E (SPH), hence GetSP is
preserved. -/
theorem GetSP_SetDataMem (m : Machine) (a v : Nat)
    (h93 : (a % 65536) % DATA_MEM_SIZE ≠ 93)
    (h94 : (a % 65536) % DATA_MEM_SIZE ≠ 94) :
    GetSP (SetDataMem m a v) = GetSP m := by
  unfold SetDataMem SetDataMemDecoded
  simp only [PreSetDataMem_eq, PostSetDataMem_eq]
  set b := (a % 65536) % DATA_MEM_SIZE with hb
  by_cases h1 : b < GP_REGISTERS_END_ADDRESS
  · rw [if_pos h1]
    rfl
  · rw [if_neg h1]
    by_cases h2 : b < IO_REGISTERS_END_ADDRESS
    · rw [if_pos h2]
      rw [GP_REGISTERS_END_ADDRESS_eq] at h1
      rw [IO_REGISTERS_END_ADDRESS_eq] at h2
      have hio : (if b = 0x3F then UnpackSREG m (v % 256) else m).IOreg = m.IOreg := by
        split <;> rfl
      have e61 : ¬((0x3D : Nat) = (b - IO_REGISTERS_START_ADDRESS) % IO_REGISTERS) := by
        simp only [IO_REGISTERS_START_ADDRESS_eq, IO_REGISTERS_eq]
        omega
      have e62 : ¬((0x3E : Nat) = (b - IO_REGISTERS_START_ADDRESS) % IO_REGISTERS) := by
        simp only [IO_REGISTERS_START_ADDRESS_eq, IO_REGISTERS_eq]
        omega
      unfold GetSP
      simp [Fin.mk.injEq, e61, e62, hio]
    · rw [if_neg h2]
      by_cases h3 : b < SRAM_END_ADDRESS
      · rw [if_pos h3]
        rfl
      · rw [if_neg h3]

/-- GetDataMem threads the machine through identity hooks only: the
returned state is the input state. -/
theorem GetDataMem_snd (m : Machine) (a : Nat) : (GetDataMem m a).2 = m := by
  unfold GetDataMem GetDataMemDecoded
  simp only [PreGetDataMem_eq, PostGetDataMem_eq]
  split
  · rfl
  · split
    · split
      · rfl
      · rfl
    · split
      · rfl
      · rfl

/-- Reading back the cell just written returns the written byte, for
every address (the status-register dispatch at data address 0x3F also
round-trips, because pack after unpack is the identity on bytes). -/
theorem GetDataMem_SetDataMem (m : Machine) (a v : Nat) (hv : v < 256) :
    (GetDataMem (SetDataMem m a v) a).1 = v := by
  unfold GetDataMem GetDataMemDecoded SetDataMem SetDataMemDecoded
  simp only [PreSetDataMem_eq, PostSetDataMem_eq, PreGetDataMem_eq, PostGetDataMem_eq]
  set b := (a % 65536) % DATA_MEM_SIZE with hb
  have hblt : b < 608 := by
    rw [hb, ← DATA_MEM_SIZE_eq]
    exact Nat.mod_lt _ (by decide)
  by_cases h1 : b < GP_REGISTERS_END_ADDRESS
  · simp only [if_pos h1]
    simp [Nat.mod_eq_of_lt hv]
  · simp only [if_neg h1]
    by_cases h2 : b < IO_REGISTERS_END_ADDRESS
    · simp only [if_pos h2]
      by_cases h3 : b = 0x3F
      · simp only [if_pos h3]
        simp only [PackSREG, UnpackSREG]
        have : v % 256 % 256 = v := by omega
        simp [this, packBits_unpackBits v hv]
      · simp only [if_neg h3]
        simp [Nat.mod_eq_of_lt hv]
    · simp only [if_neg h2]
      have h3 : b < SRAM_END_ADDRESS := by
        rw [SRAM_END_ADDRESS_eq]
        exact hblt
      simp only [if_pos h3]
      simp [Nat.mod_eq_of_lt hv]

/-- SetSP only writes the SPL/SPH cells, so a data-memory read at an
address whose decoded form is neither 0x5D nor 0x5E is unchanged. -/
theorem GetDataMem_SetSP (m : Machine) (x a : Nat)
    (h93 : (a % 65536) % DATA_MEM_SIZE ≠ 93)
    (h94 : (a % 65536) % DATA_MEM_SIZE ≠ 94) :
    (GetDataMem (SetSP m x) a).1 = (GetDataMem m a).1 := by
  unfold GetDataMem GetDataMemDecoded SetSP
  simp only [PreGetDataMem_eq, PostGetDataMem_eq]
  set b := (a % 65536) % DATA_MEM_SIZE with hb
  by_cases h1 : b < GP_REGISTERS_END_ADDRESS
  · simp only [if_pos h1]
  · simp only [if_neg h1]
    by_cases h2 : b < IO_REGISTERS_END_ADDRESS
    · simp only [if_pos h2]
      by_cases h3 : b = 0x3F
      · simp only [if_pos h3]
        rfl
      · simp only [if_neg h3]
        rw [GP_REGISTERS_END_ADDRESS_eq] at h1
        rw [IO_REGISTERS_END_ADDRESS_eq] at h2
        have e62 : ¬((b - IO_REGISTERS_START_ADDRESS) % IO_REGISTERS = 0x3E) := by
          simp only [IO_REGISTERS_START_ADDRESS_eq, IO_REGISTERS_eq]
          omega
        have e61 : ¬((b - IO_REGISTERS_START_ADDRESS) % IO_REGISTERS = 0x3D) := by
          simp only [IO_REGISTERS_START_ADDRESS_eq, IO_REGISTERS_eq]
          omega
        simp [Fin.mk.injEq, e61, e62]
    · simp only [if_neg h2]
      split <;> rfl

/-- GetDataMem only depends on the address through its decoded form
(truncation to 16 bits followed by reduction mod DATA_MEM_SIZE). -/
theorem GetDataMem_mod (m : Machine) (a : Nat) :
    GetDataMem m a = GetDataMem m ((a % 65536) % DATA_MEM_SIZE) := by
  have h : (((a % 65536) % DATA_MEM_SIZE) % 65536) % DATA_MEM_SIZE
      = (a % 65536) % DATA_MEM_SIZE := by
    rw [DATA_MEM_SIZE_eq]; omega
  unfold GetDataMem
  rw [h]

/-- SetDataMem only depends on the address through its decoded form. -/
theorem SetDataMem_mod (m : Machine) (a v : Nat) :
    SetDataMem m a v = SetDataMem m ((a % 65536) % DATA_MEM_SIZE) v := by
  have h : (((a % 65536) % DATA_MEM_SIZE) % 65536) % DATA_MEM_SIZE
      = (a % 65536) % DATA_MEM_SIZE := by
    rw [DATA_MEM_SIZE_eq]; omega
  unfold SetDataMem
  rw [h]

/-- Claim C1: for every 16-bit data address a and every byte v,
SetDataMem followed by GetDataMem at the same address returns v; both
operations reduce the address modulo DATA_MEM_SIZE, so out-of-range
addresses wrap to the same cell; in particular the round trip holds for
every a below DATA_MEM_SIZE including the address 0x5F. -/
theorem setDataMem_getDataMem_roundtrip (m : Machine) (a v : Nat)
    (ha : a < 65536) (hv : v < 256) :
    (GetDataMem (SetDataMem m a v) a).1 = v ∧
    SetDataMem m a v = SetDataMem m (a % DATA_MEM_SIZE) v ∧
    GetDataMem m a = GetDataMem m (a % DATA_MEM_SIZE) := by
  have e1 : a % 65536 = a := Nat.mod_eq_of_lt ha
  have e2 : ((a % DATA_MEM_SIZE) % 65536) % DATA_MEM_SIZE = a % DATA_MEM_SIZE := by
    rw [DATA_MEM_SIZE_eq]; omega
  refine ⟨GetDataMem_SetDataMem m a v hv, ?_, ?_⟩
  · calc SetDataMem m a v
        = SetDataMem m ((a % 65536) % DATA_MEM_SIZE) v := SetDataMem_mod m a v
      _ = SetDataMem m (((a % DATA_MEM_SIZE) % 65536) % DATA_MEM_SIZE) v := by
          rw [e1, e2]
      _ = SetDataMem m (a % DATA_MEM_SIZE) v := (SetDataMem_mod m _ v).symm
  · calc GetDataMem m a
        = GetDataMem m ((a % 65536) % DATA_MEM_SIZE) := GetDataMem_mod m a
      _ = GetDataMem m (((a % DATA_MEM_SIZE) % 65536) % DATA_MEM_SIZE) := by
          rw [e1, e2]
      _ = GetDataMem m (a % DATA_MEM_SIZE) := (GetDataMem_mod m _).symm

/-- Witness for C1 at the status-register address 0x5F of the claim. -/
theorem setDataMem_getDataMem_roundtrip_witness :
    (0x5F : Nat) < 65536 ∧ (0xA5 : Nat) < 256 ∧
    ((GetDataMem (SetDataMem m0 0x5F 0xA5) 0x5F).1 = 0xA5 ∧
     SetDataMem m0 0x5F 0xA5 = SetDataMem m0 (0x5F % DATA_MEM_SIZE) 0xA5 ∧
     GetDataMem m0 0x5F = GetDataMem m0 (0x5F % DATA_MEM_SIZE)) :=
  ⟨by decide, by decide,
   setDataMem_getDataMem_roundtrip m0 0x5F 0xA5 (by decide) (by decide)⟩

/-- Claim C3: PackSREG puts I at bit 7, T at 6, H at 5, S at 4, V at 3,
N at 2, Z at 1, C at 0, and PackSREG and UnpackSREG are mutually
inverse: unpack then pack is the identity on bytes, pack then unpack is
the identity on the flag array. -/
theorem packSREG_unpackSREG_inverse (m : Machine) (b : Nat) (hb : b < 256) :
    ((PackSREG m).testBit 7 = m.SREG SREG_I ∧
     (PackSREG m).testBit 6 = m.SREG SREG_T ∧
     (PackSREG m).testBit 5 = m.SREG SREG_H ∧
     (PackSREG m).testBit 4 = m.SREG SREG_S ∧
     (PackSREG m).testBit 3 = m.SREG SREG_V ∧
     (PackSREG m).testBit 2 = m.SREG SREG_N ∧
     (PackSREG m).testBit 1 = m.SREG SREG_Z ∧
     (PackSREG m).testBit 0 = m.SREG SREG_C) ∧
    PackSREG (UnpackSREG m b) = b ∧
    (∀ i, (UnpackSREG m (PackSREG m)).SREG i = m.SREG i) := by
  refine ⟨⟨packBits_testBit m.SREG SREG_I, packBits_testBit m.SREG SREG_T,
           packBits_testBit m.SREG SREG_H, packBits_testBit m.SREG SREG_S,
           packBits_testBit m.SREG SREG_V, packBits_testBit m.SREG SREG_N,
           packBits_testBit m.SREG SREG_Z, packBits_testBit m.SREG SREG_C⟩,
         ?_, ?_⟩
  · simp only [PackSREG, UnpackSREG, Nat.mod_eq_of_lt hb]
    exact packBits_unpackBits b hb
  · intro i
    simp only [PackSREG, UnpackSREG, Nat.mod_eq_of_lt (packBits_lt m.SREG)]
    exact unpackBits_packBits m.SREG i

/-- Witness for C3. -/
theorem packSREG_unpackSREG_inverse_witness :
    (0xA5 : Nat) < 256 ∧
    (((PackSREG m93).testBit 7 = m93.SREG SREG_I ∧
      (PackSREG m93).testBit 6 = m93.SREG SREG_T ∧
      (PackSREG m93).testBit 5 = m93.SREG SREG_H ∧
      (PackSREG m93).testBit 4 = m93.SREG SREG_S ∧
      (PackSREG m93).testBit 3 = m93.SREG SREG_V ∧
      (PackSREG m93).testBit 2 = m93.SREG SREG_N ∧
      (PackSREG m93).testBit 1 = m93.SREG SREG_Z ∧
      (PackSREG m93).testBit 0 = m93.SREG SREG_C) ∧
     PackSREG (UnpackSREG m93 0xA5) = 0xA5 ∧
     (∀ i, (UnpackSREG m93 (PackSREG m93)).SREG i = m93.SREG i)) :=
  ⟨by decide, packSREG_unpackSREG_inverse m93 0xA5 (by decide)⟩

/-- Claim C9 (code bug): at val = 128, bit_count = 8 the ToSigned macro
returns 0, while the standard two complement reading of the 8-bit
pattern 128 is 128 - 256 = -128. -/
theorem toSigned_128_8_is_zero :
    ToSigned 128 8 = 0 ∧ (128 : Int) - 2 ^ 8 = -128 ∧
    ToSigned 128 8 ≠ (128 : Int) - 2 ^ 8 := by decide

/-- Claim C10: GetDataMem never mutates the machine: the state it
returns is its input state, and each peripheral read hook (including
the USI hook it dispatches to) is the identity. -/
theorem getDataMem_pure (m : Machine) (a : Nat) :
    (GetDataMem m a).2 = m ∧ PreGetDataMem m a = m ∧ PostGetDataMem m a = m ∧
    USI_PostGetDataMem m a = m :=
  ⟨GetDataMem_snd m a, PreGetDataMem_eq m a, PostGetDataMem_eq m a,
   USI_PostGetDataMem_eq m a⟩

theorem flashWord_eq (m : Machine) (i : Nat) (h : i < PROG_MEM_SIZE) :
    flashWord m i = m.FLASH ⟨i, h⟩ := by
  unfold flashWord
  congr 1
  apply Fin.ext
  show i % PROG_MEM_SIZE = i
  exact Nat.mod_eq_of_lt h

/-- Claim C7: for every program word stored at word address i the
program-memory byte reader returns the low half at byte address 2i and
the high half at byte address 2i+1. -/
theorem getProgMemByte_halves (m : Machine) (i : Nat) (hi : i < PROG_MEM_SIZE) :
    GetProgMemByte m (2 * i) = m.FLASH ⟨i, hi⟩ &&& 0xff ∧
    GetProgMemByte m (2 * i + 1) = (m.FLASH ⟨i, hi⟩ >>> 8) &&& 0xff := by
  have hi4 : i < 4096 := by rw [PROG_MEM_SIZE_eq] at hi; exact hi
  have e0 : 2 * i % 65536 = 2 * i := Nat.mod_eq_of_lt (by omega)
  have e0o : (2 * i + 1) % 65536 = 2 * i + 1 := Nat.mod_eq_of_lt (by omega)
  have s0 : (2 * i) >>> 1 = i := by
    rw [Nat.shiftRight_eq_div_pow]; omega
  have s1 : (2 * i + 1) >>> 1 = i := by
    rw [Nat.shiftRight_eq_div_pow]; omega
  have a0 : (2 * i) &&& 1 = 0 := by
    rw [Nat.and_one_is_mod]; omega
  have a1 : (2 * i + 1) &&& 1 = 1 := by
    rw [Nat.and_one_is_mod]; omega
  constructor
  · unfold GetProgMemByte
    rw [e0, s0, a0, flashWord_eq m i hi]
    norm_num
  · unfold GetProgMemByte
    rw [e0o, s1, a1, flashWord_eq m i hi]

/-- Witness for C7. -/
theorem getProgMemByte_halves_witness :
    (1 : Nat) < PROG_MEM_SIZE ∧
    (GetProgMemByte m0beef (2 * 1) = m0beef.FLASH ⟨1, by decide⟩ &&& 0xff ∧
     GetProgMemByte m0beef (2 * 1 + 1) = (m0beef.FLASH ⟨1, by decide⟩ >>> 8) &&& 0xff) :=
  ⟨by decide, getProgMemByte_halves m0beef 1 (by decide)⟩

/-- Claim C5 (code bug): loading the 2-byte image [0x12, 0x34] sets word
0 to 0x3412 (low byte first) but leaves word 1 -- which the claim says
must be zero -- holding whatever the uninitialized machine already had
there (main, atsim.c line 16, never clears the Machine). -/
theorem load_memory_keeps_uncovered_words :
    (load_memory m0beef [0x12, 0x34]).FLASH ⟨0, by decide⟩ = 0x3412 ∧
    (load_memory m0beef [0x12, 0x34]).FLASH ⟨1, by decide⟩ = 0xBEEF ∧
    (0xBEEF : Nat) ≠ 0 := by decide

/-- Counterexample to C6 as stated: writing 0xA5 to data address 0x5F
changes IO cell 0x3F (so the value IS stored in the IO array) while the
flag array stays all-false (packing to 0), and reading 0x5F afterwards
returns the stored IO byte. -/
theorem setDataMem_5F_stores_in_IOarray :
    (SetDataMem m0 0x5F 0xA5).IOreg ⟨0x3F, by decide⟩ = 0xA5 ∧
    m0.IOreg ⟨0x3F, by decide⟩ = 0 ∧
    (SetDataMem m0 0x5F 0xA5).IOreg ⟨0x3F, by decide⟩ ≠ m0.IOreg ⟨0x3F, by decide⟩ ∧
    (GetDataMem (SetDataMem m0 0x5F 0xA5) 0x5F).1 = 0xA5 ∧
    PackSREG (SetDataMem m0 0x5F 0xA5) = 0 := by decide

/-- Claim C6 amended: the status-register dispatch of the data-memory
accessors happens at data address 0x3F, not 0x5F, and it is not
exclusive.  A write to 0x5F is a plain store into IO[0x3F] that leaves
the flag array and every other cell untouched, and a read of 0x5F
returns that stored byte; a write to 0x3F unpacks the byte into the
flag array AND stores it into IO[0x1F], and a read of 0x3F returns the
packed flag byte. -/
theorem setDataMem_status_register_dispatch (m : Machine) (v : Nat)
    (hv : v < 256) :
    (SetDataMem m 0x5F v).SREG = m.SREG ∧
    (SetDataMem m 0x5F v).IOreg ⟨0x3F, by decide⟩ = v ∧
    (∀ j : Fin IO_REGISTERS, j.val ≠ 0x3F → (SetDataMem m 0x5F v).IOreg j = m.IOreg j) ∧
    (SetDataMem m 0x5F v).R = m.R ∧
    (SetDataMem m 0x5F v).SRAM = m.SRAM ∧
    (GetDataMem m 0x5F).1 = m.IOreg ⟨0x3F, by decide⟩ ∧
    (∀ i, (SetDataMem m 0x3F v).SREG i = unpackBits v i) ∧
    (SetDataMem m 0x3F v).IOreg ⟨0x1F, by decide⟩ = v ∧
    (GetDataMem m 0x3F).1 = PackSREG m := by
  have h5F : SetDataMem m 0x5F v = SetDataMemDecoded m 95 v := rfl
  have h3F : SetDataMem m 0x3F v = SetDataMemDecoded m 63 v := rfl
  have hmod : v % 256 = v := Nat.mod_eq_of_lt hv
  refine ⟨?_, ?_, ?_, ?_, ?_, ?_, ?_, ?_, ?_⟩
  · rw [h5F]
    simp [SetDataMemDecoded, PreSetDataMem_eq, PostSetDataMem_eq,
          GP_REGISTERS_END_ADDRESS_eq, IO_REGISTERS_END_ADDRESS_eq]
  · rw [h5F]
    simp [SetDataMemDecoded, PreSetDataMem_eq, PostSetDataMem_eq,
          GP_REGISTERS_END_ADDRESS_eq, IO_REGISTERS_END_ADDRESS_eq,
          IO_REGISTERS_START_ADDRESS_eq, IO_REGISTERS_eq, hmod]
  · intro j hj
    rw [h5F]
    simp only [SetDataMemDecoded, PreSetDataMem_eq, PostSetDataMem_eq]
    norm_num [GP_REGISTERS_END_ADDRESS_eq, IO_REGISTERS_END_ADDRESS_eq,
              IO_REGISTERS_START_ADDRESS_eq, IO_REGISTERS_eq]
    intro hcon
    exact absurd (congrArg Fin.val hcon) (by simpa using hj)
  · rw [h5F]
    simp [SetDataMemDecoded, PreSetDataMem_eq, PostSetDataMem_eq,
          GP_REGISTERS_END_ADDRESS_eq, IO_REGISTERS_END_ADDRESS_eq]
  · rw [h5F]
    simp [SetDataMemDecoded, PreSetDataMem_eq, PostSetDataMem_eq,
          GP_REGISTERS_END_ADDRESS_eq, IO_REGISTERS_END_ADDRESS_eq]
  · show (GetDataMemDecoded m 95).1 = _
    simp [GetDataMemDecoded, PreGetDataMem_eq, PostGetDataMem_eq,
          GP_REGISTERS_END_ADDRESS_eq, IO_REGISTERS_END_ADDRESS_eq,
          IO_REGISTERS_START_ADDRESS_eq, IO_REGISTERS_eq]
  · intro i
    rw [h3F]
    simp [SetDataMemDecoded, PreSetDataMem_eq, PostSetDataMem_eq, UnpackSREG,
          GP_REGISTERS_END_ADDRESS_eq, IO_REGISTERS_END_ADDRESS_eq, hmod]
  · rw [h3F]
    simp [SetDataMemDecoded, PreSetDataMem_eq, PostSetDataMem_eq, UnpackSREG,
          GP_REGISTERS_END_ADDRESS_eq, IO_REGISTERS_END_ADDRESS_eq,
          IO_REGISTERS_START_ADDRESS_eq, IO_REGISTERS_eq, hmod]
  · show (GetDataMemDecoded m 63).1 = _
    simp [GetDataMemDecoded, GP_REGISTERS_END_ADDRESS_eq,
          IO_REGISTERS_END_ADDRESS_eq]

/-- Witness for the amended C6. -/
theorem setDataMem_status_register_dispatch_witness :
    (0xA5 : Nat) < 256 ∧
    ((SetDataMem m93 0x5F 0xA5).SREG = m93.SREG ∧
     (SetDataMem m93 0x5F 0xA5).IOreg ⟨0x3F, by decide⟩ = 0xA5 ∧
     (∀ j : Fin IO_REGISTERS, j.val ≠ 0x3F → (SetDataMem m93 0x5F 0xA5).IOreg j = m93.IOreg j) ∧
     (SetDataMem m93 0x5F 0xA5).R = m93.R ∧
     (SetDataMem m93 0x5F 0xA5).SRAM = m93.SRAM ∧
     (GetDataMem m93 0x5F).1 = m93.IOreg ⟨0x3F, by decide⟩ ∧
     (∀ i, (SetDataMem m93 0x3F 0xA5).SREG i = unpackBits 0xA5 i) ∧
     (SetDataMem m93 0x3F 0xA5).IOreg ⟨0x1F, by decide⟩ = 0xA5 ∧
     (GetDataMem m93 0x3F).1 = PackSREG m93) :=
  ⟨by decide, setDataMem_status_register_dispatch m93 0xA5 (by decide)⟩

/-- Counterexample to C4 as stated: with SPL = 94, SPH = 0 the first
store of PushStack16 lands on the SPH cell itself, so the high byte
goes to data address 349 instead of SP - 1 = 93 and the final stack
pointer is 348 instead of (94 - 2) masked = 92. -/
theorem pushStack16_sp_aliasing :
    GetSP m94 = 94 ∧
    GetSP (PushStack16 m94 0x0201) = 348 ∧
    (GetDataMem (PushStack16 m94 0x0201) 93).1 = 92 ∧
    ¬(GetSP (PushStack16 m94 0x0201) = 92 ∧
      (GetDataMem (PushStack16 m94 0x0201) 93).1 = 0x02) := by decide

/-- Claim C4 amended: provided neither of the two written cells aliases
the SPL/SPH bytes themselves (the pathological states the source's
re-reading of SP makes visible), PushStack16 stores the low byte of val
at data address SP, the high byte at data address SP - 1, and then sets
SP to (SP - 2) masked with SP_MASK, all relative to the original SP. -/
theorem pushStack16_decomposition (m : Machine) (val : Nat)
    (hval : val < 65536)
    (h1 : GetSP m % DATA_MEM_SIZE ≠ 93) (h2 : GetSP m % DATA_MEM_SIZE ≠ 94)
    (h3 : sub16 (GetSP m) 1 % DATA_MEM_SIZE ≠ 93)
    (h4 : sub16 (GetSP m) 1 % DATA_MEM_SIZE ≠ 94) :
    PushStack16 m val =
      SetSP (SetDataMem (SetDataMem m (GetSP m) (val &&& 0xff))
               (sub16 (GetSP m) 1) ((val >>> 8) &&& 0xff))
        (sub16 (GetSP m) 2) := by
  have hsp : GetSP m < 65536 := lt_trans (GetSP_lt m) (by norm_num)
  have hsp' : GetSP m % 65536 = GetSP m := Nat.mod_eq_of_lt hsp
  have hsub : sub16 (GetSP m) 1 % 65536 = sub16 (GetSP m) 1 := by
    unfold sub16; omega
  have h1' : (GetSP m % 65536) % DATA_MEM_SIZE ≠ 93 := by rw [hsp']; exact h1
  have h2' : (GetSP m % 65536) % DATA_MEM_SIZE ≠ 94 := by rw [hsp']; exact h2
  have h3' : (sub16 (GetSP m) 1 % 65536) % DATA_MEM_SIZE ≠ 93 := by
    rw [hsub]; exact h3
  have h4' : (sub16 (GetSP m) 1 % 65536) % DATA_MEM_SIZE ≠ 94 := by
    rw [hsub]; exact h4
  unfold PushStack16
  rw [Nat.mod_eq_of_lt hval]
  simp only [GetSP_SetDataMem m (GetSP m) (val &&& 0xff) h1' h2',
             GetSP_SetDataMem (SetDataMem m (GetSP m) (val &&& 0xff))
               (sub16 (GetSP m) 1) ((val >>> 8) &&& 0xff) h3' h4']

/-- Witness for the amended C4 (SP = 0, where the addresses wrap). -/
theorem pushStack16_decomposition_witness :
    ((0xABCD : Nat) < 65536 ∧ GetSP m0 % DATA_MEM_SIZE ≠ 93 ∧
     GetSP m0 % DATA_MEM_SIZE ≠ 94 ∧
     sub16 (GetSP m0) 1 % DATA_MEM_SIZE ≠ 93 ∧
     sub16 (GetSP m0) 1 % DATA_MEM_SIZE ≠ 94) ∧
    PushStack16 m0 0xABCD =
      SetSP (SetDataMem (SetDataMem m0 (GetSP m0) (0xABCD &&& 0xff))
               (sub16 (GetSP m0) 1) ((0xABCD >>> 8) &&& 0xff))
        (sub16 (GetSP m0) 2) :=
  ⟨⟨by decide, by decide, by decide, by decide, by decide⟩,
   pushStack16_decomposition m0 0xABCD (by decide) (by decide) (by decide)
     (by decide) (by decide)⟩

/-- Counterexample to C8 as stated: with SPL = 93, SPH = 0 (and
R[0] = 7) the pushed byte 0 lands on the SPL cell itself, so the pop
returns 7 (the contents of R[0], where the clobbered SP now points) and
the final SP is 0, not the original 93. -/
theorem push8_pop8_sp_aliasing :
    GetSP m93 = 93 ∧
    (PopStack8 (PushStack8 m93 0)).1 = 7 ∧
    GetSP (PopStack8 (PushStack8 m93 0)).2 = 0 ∧
    ¬((PopStack8 (PushStack8 m93 0)).1 = 0 ∧
      GetSP (PopStack8 (PushStack8 m93 0)).2 = 93) := by decide

/-- Claim C8 amended: PushStack8 then PopStack8 returns the pushed byte
and restores SP (SP arithmetic mod SP_MASK + 1, wrapping included),
provided the cell SP points at is not the SPL/SPH pair itself. -/
theorem push8_pop8_roundtrip (m : Machine) (v : Nat) (hv : v < 256)
    (h1 : GetSP m % DATA_MEM_SIZE ≠ 93) (h2 : GetSP m % DATA_MEM_SIZE ≠ 94) :
    (PopStack8 (PushStack8 m v)).1 = v ∧
    GetSP (PopStack8 (PushStack8 m v)).2 = GetSP m := by
  have hsp1024 : GetSP m < 1024 := GetSP_lt m
  have hsp' : GetSP m % 65536 = GetSP m := Nat.mod_eq_of_lt (by omega)
  have h1' : (GetSP m % 65536) % DATA_MEM_SIZE ≠ 93 := by rw [hsp']; exact h1
  have h2' : (GetSP m % 65536) % DATA_MEM_SIZE ≠ 94 := by rw [hsp']; exact h2
  have hm1 : GetSP (SetDataMem m (GetSP m) v) = GetSP m :=
    GetSP_SetDataMem m (GetSP m) v h1' h2'
  unfold PopStack8 PushStack8
  simp only [hm1, GetDataMem_snd, GetSP_SetSP, land_SP_MASK]
  have hA : ((sub16 (GetSP m) 1 % 65536 % 1024 + 1) % 65536) % 1024 = GetSP m := by
    unfold sub16
    omega
  rw [hA]
  refine ⟨?_, rfl⟩
  rw [GetDataMem_SetSP _ _ _ h1' h2', GetDataMem_SetSP _ _ _ h1' h2']
  exact GetDataMem_SetDataMem m (GetSP m) v hv

/-- Witness for the amended C8 (SP = 0, where the pushed cell is R[0]
and the decremented SP wraps to 1023). -/
theorem push8_pop8_roundtrip_witness :
    ((0xAB : Nat) < 256 ∧ GetSP m0 % DATA_MEM_SIZE ≠ 93 ∧
     GetSP m0 % DATA_MEM_SIZE ≠ 94) ∧
    ((PopStack8 (PushStack8 m0 0xAB)).1 = 0xAB ∧
     GetSP (PopStack8 (PushStack8 m0 0xAB)).2 = GetSP m0) :=
  ⟨⟨by decide, by decide, by decide⟩,
   push8_pop8_roundtrip m0 0xAB (by decide) (by decide) (by decide)⟩

theorem iterate_pred_succ (step : Machine → Machine) (k : Nat) (hk : 1 ≤ k)
    (m : Machine) : step^[k] m = step^[k - 1] (step m) := by
  conv_lhs => rw [show k = (k - 1) + 1 from by omega]
  exact Function.iterate_succ_apply step (k - 1) m

theorem run_until_halt_loopAux_sound (step : Machine → Machine) :
    ∀ (fuel : Nat) (last : Nat) (m m' : Machine), last ≠ m.PC →
    run_until_halt_loopAux step fuel last m = some m' →
    ∃ k, 1 ≤ k ∧ k < fuel ∧ m' = step^[k] m ∧
      (step^[k] m).PC = (step^[k - 1] m).PC ∧
      ∀ j, 1 ≤ j → j < k → (step^[j] m).PC ≠ (step^[j - 1] m).PC := by
  intro fuel
  induction fuel with
  | zero =>
    intro last m m' _ h
    simp [run_until_halt_loopAux] at h
  | succ f ih =>
    intro last m m' hne h
    simp only [run_until_halt_loopAux] at h
    rw [if_neg hne] at h
    by_cases hstep : m.PC = (step m).PC
    · cases f with
      | zero => simp [run_until_halt_loopAux] at h
      | succ f2 =>
        simp only [run_until_halt_loopAux] at h
        rw [if_pos hstep] at h
        refine ⟨1, le_refl 1, by omega, ?_, ?_, ?_⟩
        · simpa [Function.iterate_one] using h.symm
        · simpa using hstep.symm
        · intro j hj1 hj2
          omega
    · obtain ⟨k, hk1, hkf, hm', hfix, hmin⟩ := ih m.PC (step m) m' hstep h
      refine ⟨k + 1, by omega, by omega, ?_, ?_, ?_⟩
      · rw [hm', Function.iterate_succ_apply]
      · have e1 : step^[k + 1] m = step^[k] (step m) :=
          Function.iterate_succ_apply step k m
        have e2 : step^[k] m = step^[k - 1] (step m) :=
          iterate_pred_succ step k hk1 m
        simpa [e1, e2] using hfix
      · intro j hj1 hjk
        by_cases hj : j = 1
        · subst hj
          simpa using fun hh => hstep hh.symm
        · have e1 : step^[j] m = step^[j - 1] (step m) :=
            iterate_pred_succ step j hj1 m
          have e2 : step^[j - 1] m = step^[j - 1 - 1] (step m) :=
            iterate_pred_succ step (j - 1) (by omega) m
          rw [e1]
          have hne2 := hmin (j - 1) (by omega) (by omega)
          simpa [e2] using hne2

theorem run_until_halt_loopAux_complete (step : Machine → Machine) :
    ∀ (fuel : Nat) (last : Nat) (m : Machine) (k : Nat), last ≠ m.PC →
    1 ≤ k → k < fuel →
    (step^[k] m).PC = (step^[k - 1] m).PC →
    (∀ j, 1 ≤ j → j < k → (step^[j] m).PC ≠ (step^[j - 1] m).PC) →
    run_until_halt_loopAux step fuel last m = some (step^[k] m) := by
  intro fuel
  induction fuel with
  | zero =>
    intro last m k _ _ hkf
    omega
  | succ f ih =>
    intro last m k hne hk1 hkf hfix hmin
    simp only [run_until_halt_loopAux]
    rw [if_neg hne]
    by_cases hk : k = 1
    · subst hk
      have hfix1 : (step m).PC = m.PC := by simpa using hfix
      cases f with
      | zero => omega
      | succ f2 =>
        simp only [run_until_halt_loopAux]
        rw [if_pos hfix1.symm]
        simp [Function.iterate_one]
    · have hne2 : m.PC ≠ (step m).PC := by
        have := hmin 1 (le_refl 1) (by omega)
        simpa using fun hh => this hh.symm
      have e1 : step^[k] m = step^[k - 1] (step m) :=
        iterate_pred_succ step k hk1 m
      have e2 : step^[k - 1] m = step^[k - 1 - 1] (step m) :=
        iterate_pred_succ step (k - 1) (by omega) m
      have hfix2 : (step^[k - 1] (step m)).PC = (step^[k - 1 - 1] (step m)).PC := by
        rw [← e1, ← e2]
        exact hfix
      have hmin2 : ∀ j, 1 ≤ j → j < k - 1 →
          (step^[j] (step m)).PC ≠ (step^[j - 1] (step m)).PC := by
        intro j hj1 hjk
        have e3 : step^[j + 1] m = step^[j] (step m) :=
          Function.iterate_succ_apply step j m
        have e4 : step^[j + 1 - 1] m = step^[j - 1] (step m) := by
          have : j + 1 - 1 = j := by omega
          rw [this]
          exact iterate_pred_succ step j hj1 m
        have := hmin (j + 1) (by omega) (by omega)
        rw [e3, e4] at this
        exact this
      rw [e1]
      exact ih m.PC (step m) (k - 1) hne2 (by omega) (by omega) hfix2 hmin2

/-- Claim C2: for every initial state with PC < PROG_MEM_SIZE and every
cycle function (machine_cycle in particular; its instruction executor
is external to the provided sources), run_until_halt_loop returns
exactly the state after the first cycle that leaves PC unchanged: it
runs at least one cycle, keeps cycling while each cycle changes PC, and
stops immediately after the first cycle whose resulting PC equals the
PC it started from (given enough fuel; none models non-termination). -/
theorem run_until_halt_loop_fixed_point (step : Machine → Machine)
    (fuel : Nat) (m m' : Machine) (hpc : m.PC < PROG_MEM_SIZE) :
    run_until_halt_loop step fuel m = some m' ↔
    ∃ k, 1 ≤ k ∧ k < fuel ∧ m' = step^[k] m ∧
      (step^[k] m).PC = (step^[k - 1] m).PC ∧
      ∀ j, 1 ≤ j → j < k → (step^[j] m).PC ≠ (step^[j - 1] m).PC := by
  have hne : (0xffff : Nat) ≠ m.PC := by
    rw [PROG_MEM_SIZE_eq] at hpc
    omega
  unfold run_until_halt_loop
  constructor
  · intro h
    exact run_until_halt_loopAux_sound step fuel 0xffff m m' hne h
  · rintro ⟨k, hk1, hkf, rfl, hfix, hmin⟩
    exact run_until_halt_loopAux_complete step fuel 0xffff m k hne hk1 hkf hfix hmin

/-- Witness for C2: the identity cycle function halts after exactly one
cycle from the all-zero machine. -/
theorem run_until_halt_loop_fixed_point_witness :
    m0.PC < PROG_MEM_SIZE ∧
    (run_until_halt_loop (fun mm => mm) 2 m0 = some m0 ↔
     ∃ k, 1 ≤ k ∧ k < 2 ∧ m0 = (fun mm => mm)^[k] m0 ∧
       ((fun mm => mm)^[k] m0).PC = ((fun mm => mm)^[k - 1] m0).PC ∧
       ∀ j, 1 ≤ j → j < k →
         ((fun mm => mm)^[j] m0).PC ≠ ((fun mm => mm)^[j - 1] m0).PC) :=
  ⟨by decide, run_until_halt_loop_fixed_point (fun mm => mm) 2 m0 m0 (by decide)⟩

end ATSim
